import Mathlib

/-!
Shallow embedding of the AssetManager backend (Node.js + Express + PostgreSQL
+ S3).  The definitions mirror, file by file, the JavaScript source:

* `routes/auth.js`   — registration (`registerRoute`);
* `routes/assets.js` — multer staging, the upload orchestrator
  (`uploadRoute`), the owner delete (`ownerDeleteRoute`), tag and
  permission parsing (`parseTags`, `parsePermissions`);
* `routes/admin.js`  — the admin delete (`adminDeleteRoute`) and the
  visibility aggregate (`visibilityQuery`, `visibilityResponse`);
* the SQL schema     — table shapes and the `assets.id` column
  (`insertAsset`, `pkNotNullOk`).

External capabilities (the ECMAScript `JSON.parse`/`JSON.stringify`
builtins, JavaScript string methods, PostgreSQL boolean casts and
aggregates, bcrypt) are modelled from their published semantics; the
bcrypt hash is abstracted as a function parameter.
-/

namespace AssetManager

/-! ### JavaScript / JSON value model -/

/-- A JSON value, as produced by the ECMAScript `JSON.parse` builtin and as
stored in the PostgreSQL `json` column `assets.permissions`.  Numbers keep
their raw textual form: the program never computes with them. -/
inductive Json where
  | null : Json
  | bool (b : Bool) : Json
  | num (raw : String) : Json
  | str (s : String) : Json
  | arr (elems : List Json) : Json
  | obj (fields : List (String × Json)) : Json

/-- Code points of JSON insignificant whitespace (RFC 8259: space, tab,
line feed, carriage return). -/
def jsonWsCodes : List Nat := [32, 9, 10, 13]

/-- JSON insignificant whitespace. -/
def jsonWs (c : Char) : Bool := jsonWsCodes.contains c.toNat

/-- Drop leading JSON whitespace from a character stream. -/
def skipWs : List Char → List Char
  | [] => []
  | c :: cs => if jsonWs c then skipWs cs else c :: cs

/-- Table of the two-character JSON string escapes: the character after
the backslash paired with the character it denotes. -/
def escapeTable : List (Char × Char) :=
  [('"', '"'), ('\\', '\\'), ('/', '/'), ('n', '\n'), ('t', '\t'),
    ('r', '\r'), ('b', Char.ofNat 8), ('f', Char.ofNat 12)]

/-- Decode one JSON string escape character (the character after the
backslash).  `none` marks an invalid escape, which makes `JSON.parse`
fail. -/
def unescapeChar (c : Char) : Option Char :=
  (escapeTable.find? (fun p => p.fst == c)).map Prod.snd

/-- Value of a hexadecimal digit, for `\uXXXX` escapes, by code
point: digits, then the lower-case and upper-case letter ranges. -/
def hexVal (c : Char) : Option Nat :=
  let n := c.toNat
  if 48 ≤ n ∧ n ≤ 57 then some (n - 48)
  else if 97 ≤ n ∧ n ≤ 102 then some (n - 87)
  else if 65 ≤ n ∧ n ≤ 70 then some (n - 55)
  else none

/-- Parse the body of a JSON string (the opening quote already consumed),
returning the decoded characters and the rest of the stream. -/
def parseStringBody : Nat → List Char → Option (List Char × List Char)
  | 0, _ => none
  | _, [] => none
  | fuel + 1, c :: cs =>
    if c == '"' then some ([], cs)
    else if c == '\\' then
      match cs with
      | [] => none
      | 'u' :: h1 :: h2 :: h3 :: h4 :: cs2 =>
        match hexVal h1, hexVal h2, hexVal h3, hexVal h4 with
        | some a, some b, some c3, some d =>
          match parseStringBody fuel cs2 with
          | some (body, rest) =>
            some (Char.ofNat (((a * 16 + b) * 16 + c3) * 16 + d) :: body, rest)
          | none => none
        | _, _, _, _ => none
      | e :: cs2 =>
        match unescapeChar e with
        | some d =>
          match parseStringBody fuel cs2 with
          | some (body, rest) => some (d :: body, rest)
          | none => none
        | none => none
    else if c.toNat < 32 then none
    else
      match parseStringBody fuel cs with
      | some (body, rest) => some (c :: body, rest)
      | none => none

/-- Longest prefix of decimal digits. -/
def takeDigits (cs : List Char) : List Char × List Char :=
  (cs.takeWhile Char.isDigit, cs.dropWhile Char.isDigit)

/-- Parse a JSON number per the RFC 8259 grammar, keeping its raw text. -/
def parseNumber (cs : List Char) : Option (Json × List Char) :=
  let (sign, cs1) :=
    match cs with
    | '-' :: rest => (['-'], rest)
    | _ => (([] : List Char), cs)
  match cs1 with
  | '0' :: cs2 =>
    parseNumberTail (sign ++ ['0']) cs2
  | c :: _ =>
    if c.isDigit then
      let (ds, cs2) := takeDigits cs1
      parseNumberTail (sign ++ ds) cs2
    else none
  | [] => none
where
  /-- Optional fraction and exponent after the integer part. -/
  parseNumberTail (intPart : List Char) (cs : List Char) :
      Option (Json × List Char) :=
    let (fracPart, cs1) :=
      match cs with
      | '.' :: cs2 =>
        let (ds, cs3) := takeDigits cs2
        if ds = [] then ([], cs) else ('.' :: ds, cs3)
      | _ => (([] : List Char), cs)
    if (cs != [] ∧ cs.head? = some '.') ∧ fracPart = [] then none
    else
      let (expPart, cs2) :=
        match cs1 with
        | e :: cs3 =>
          if e == 'e' || e == 'E' then
            match cs3 with
            | s :: cs4 =>
              if s == '+' || s == '-' then
                let (ds, cs5) := takeDigits cs4
                if ds = [] then (([] : List Char), cs1)
                else (e :: s :: ds, cs5)
              else
                let (ds, cs5) := takeDigits cs3
                if ds = [] then (([] : List Char), cs1)
                else (e :: ds, cs5)
            | [] => (([] : List Char), cs1)
          else (([] : List Char), cs1)
        | [] => (([] : List Char), cs1)
      some (Json.num (String.mk (intPart ++ fracPart ++ expPart)), cs2)

/-- The opening curly brace character. -/
def braceOpen : Char := Char.ofNat 123

/-- The closing curly brace character. -/
def braceClose : Char := Char.ofNat 125

mutual

/-- One JSON value from the stream (fuel-indexed recursive descent,
modelling the ECMAScript `JSON.parse` builtin). -/
def parseValue : Nat → List Char → Option (Json × List Char)
  | 0, _ => none
  | fuel + 1, cs =>
    match skipWs cs with
    | [] => none
    | c :: cs1 =>
      if c == '"' then
        match parseStringBody (fuel + 1) cs1 with
        | some (body, rest) => some (Json.str (String.mk body), rest)
        | none => none
      else if c == '[' then
        match skipWs cs1 with
        | ']' :: rest => some (Json.arr [], rest)
        | cs2 => parseArrayItems fuel cs2
      else if c == braceOpen then
        match skipWs cs1 with
        | d :: rest =>
          if d == braceClose then some (Json.obj [], rest)
          else parseObjectItems fuel (d :: rest)
        | [] => parseObjectItems fuel []
      else if c == 't' then
        match cs1 with
        | 'r' :: 'u' :: 'e' :: rest => some (Json.bool true, rest)
        | _ => none
      else if c == 'f' then
        match cs1 with
        | 'a' :: 'l' :: 's' :: 'e' :: rest => some (Json.bool false, rest)
        | _ => none
      else if c == 'n' then
        match cs1 with
        | 'u' :: 'l' :: 'l' :: rest => some (Json.null, rest)
        | _ => none
      else parseNumber (c :: cs1)

/-- Comma-separated array elements, up to the closing bracket. -/
def parseArrayItems : Nat → List Char → Option (Json × List Char)
  | 0, _ => none
  | fuel + 1, cs =>
    match parseValue fuel cs with
    | none => none
    | some (v, rest) =>
      match skipWs rest with
      | ',' :: rest2 =>
        match parseArrayItems fuel rest2 with
        | some (Json.arr vs, rest3) => some (Json.arr (v :: vs), rest3)
        | _ => none
      | ']' :: rest2 => some (Json.arr [v], rest2)
      | _ => none

/-- Comma-separated object members, up to the closing brace. -/
def parseObjectItems : Nat → List Char → Option (Json × List Char)
  | 0, _ => none
  | fuel + 1, cs =>
    match skipWs cs with
    | '"' :: cs1 =>
      match parseStringBody (fuel + 1) cs1 with
      | none => none
      | some (key, rest) =>
        match skipWs rest with
        | ':' :: rest2 =>
          match parseValue fuel rest2 with
          | none => none
          | some (v, rest3) =>
            match skipWs rest3 with
            | d :: rest4 =>
              if d == ',' then
                match parseObjectItems fuel rest4 with
                | some (Json.obj fs, rest5) =>
                  some (Json.obj ((String.mk key, v) :: fs), rest5)
                | _ => none
              else if d == braceClose then
                some (Json.obj [(String.mk key, v)], rest4)
              else none
            | [] => none
        | _ => none
    | _ => none

end

/-- The ECMAScript `JSON.parse` builtin: parse a complete JSON text;
`none` models the thrown `SyntaxError`. -/
def Json.parse (s : String) : Option Json :=
  match parseValue (s.length + 1) s.toList with
  | some (v, rest) => if skipWs rest = [] then some v else none
  | none => none

end AssetManager

namespace AssetManager

/-! ### JSON rendering (the `JSON.stringify` builtin) -/

/-- Hexadecimal digit character (lower case), for control-character
escapes. -/
def hexChar (n : Nat) : Char :=
  if n < 10 then Char.ofNat ('0'.toNat + n) else Char.ofNat ('a'.toNat + n - 10)

/-- Escaping of a single string character, as the `JSON.stringify` builtin does it. -/
def escapeJsonChar (c : Char) : List Char :=
  if c == '"' then ['\\', '"']
  else if c == '\\' then ['\\', '\\']
  else if c == '\n' then ['\\', 'n']
  else if c == '\t' then ['\\', 't']
  else if c == '\r' then ['\\', 'r']
  else if c.toNat == 8 then ['\\', 'b']
  else if c.toNat == 12 then ['\\', 'f']
  else if c.toNat < 32 then
    ['\\', 'u', '0', '0', hexChar (c.toNat / 16), hexChar (c.toNat % 16)]
  else [c]

/-- Rendering of a string body for `JSON.stringify`. -/
def escapeJsonString (s : String) : String :=
  String.mk (s.toList.flatMap escapeJsonChar)

mutual

/-- The ECMAScript `JSON.stringify` builtin on JSON values. -/
def Json.render : Json → String
  | .null => "null"
  | .bool true => "true"
  | .bool false => "false"
  | .num raw => raw
  | .str s => "\"" ++ escapeJsonString s ++ "\""
  | .arr es => "[" ++ renderElems es ++ "]"
  | .obj fs => "\x7b" ++ renderFields fs ++ "\x7d"

/-- Comma-joined rendering of array elements. -/
def renderElems : List Json → String
  | [] => ""
  | [v] => Json.render v
  | v :: vs => Json.render v ++ "," ++ renderElems vs

/-- Comma-joined rendering of object members. -/
def renderFields : List (String × Json) → String
  | [] => ""
  | [(k, v)] => "\"" ++ escapeJsonString k ++ "\":" ++ Json.render v
  | (k, v) :: fs =>
    "\"" ++ escapeJsonString k ++ "\":" ++ Json.render v ++ "," ++ renderFields fs

end

/-! ### JavaScript string and object helpers -/

/-- Code points the ECMAScript `String.prototype.trim` strips (the
common members of WhiteSpace and LineTerminator). -/
def jsTrimCodes : List Nat := [32, 9, 10, 13, 11, 12, 160, 0xFEFF]

/-- ECMAScript trimmable whitespace. -/
def jsTrimWs (c : Char) : Bool := jsTrimCodes.contains c.toNat

/-- Strip leading and trailing whitespace from a character list. -/
def trimChars (cs : List Char) : List Char :=
  ((cs.dropWhile jsTrimWs).reverse.dropWhile jsTrimWs).reverse

/-- The ECMAScript `String.prototype.trim` method. -/
def jsTrim (s : String) : String := String.mk (trimChars s.toList)

/-- Whether `l` begins with `pre` (character-list version). -/
def listStartsWith : List Char → List Char → Bool
  | _, [] => true
  | [], _ :: _ => false
  | c :: cs, p :: ps => c == p && listStartsWith cs ps

/-- Worker for `jsSplit`: scan for the (non-empty) separator, emitting
the accumulated field at each occurrence.  The fuel is at least the
input length plus one, so it never runs out. -/
def jsSplitAux : Nat → List Char → List Char → List Char → List (List Char)
  | 0, _, _, acc => [acc.reverse]
  | _ + 1, [], _, acc => [acc.reverse]
  | fuel + 1, c :: cs, sep, acc =>
    if listStartsWith (c :: cs) sep then
      acc.reverse :: jsSplitAux fuel ((c :: cs).drop sep.length) sep []
    else jsSplitAux fuel cs sep (c :: acc)

/-- The ECMAScript `String.prototype.split` method with a string
separator: every occurrence of the separator starts a new field; an
empty separator splits between every character. -/
def jsSplit (s sep : String) : List String :=
  if sep = "" then s.toList.map (fun c => String.mk [c])
  else (jsSplitAux (s.toList.length + 1) s.toList sep.toList []).map String.mk

/-- Last-binding lookup in the member list of a JSON object: both the object
produced by `JSON.parse` (later duplicate keys overwrite earlier ones)
and the PostgreSQL `json` field accessor resolve duplicates to the last
occurrence. -/
def lookupLast : List (String × Json) → String → Option Json
  | [], _ => none
  | (k2, v) :: rest, k =>
    match lookupLast rest k with
    | some v2 => some v2
    | none => if k2 = k then some v else none

/-- Whether the raw text of a JSON number denotes zero (every mantissa
digit is `0`). -/
def numIsZero (raw : String) : Bool :=
  ((raw.toList.takeWhile (fun c => c ≠ 'e' ∧ c ≠ 'E')).filter
    Char.isDigit).all (fun c => c == '0')

/-- ECMAScript truthiness of a JSON value. -/
def Json.truthy : Json → Bool
  | .null => false
  | .bool b => b
  | .num raw => !(numIsZero raw)
  | .str s => s ≠ ""
  | .arr _ => true
  | .obj _ => true

/-- The JavaScript member access `j.k` followed by a truthiness test, as
in `permissions.public ? "public-read" : "private"`: property access on
`null` throws a `TypeError` (the `Except.error` case); on any other
non-object value it yields `undefined`, which is falsy. -/
def jsMemberTruthy (j : Json) (k : String) : Except String Bool :=
  match j with
  | .null => .error "TypeError"
  | .obj fields =>
    match lookupLast fields k with
    | some v => .ok v.truthy
    | none => .ok false
  | _ => .ok false

end AssetManager

namespace AssetManager

/-! ### Upload-body field parsing (routes/assets.js, POST /upload) -/

/-- The comma-split fallback for tags:
`req.body.tags.split(",").map(t => t.trim()).filter(Boolean)`. -/
def commaSplitTags (s : String) : List String :=
  ((jsSplit s ",").map jsTrim).filter (fun t => t ≠ "")

/-- Tag parsing in the upload handler: `tags` starts as `null`; when
`req.body.tags` is truthy (present and non-empty), `JSON.parse` is tried
and, on a parse error, the comma-split fallback is used.  The result is
the JavaScript value of the `tags` variable (`none` models `null`). -/
def parseTags (tagsField : Option String) : Option Json :=
  match tagsField with
  | none => none
  | some s =>
    if s = "" then none
    else
      match Json.parse s with
      | some v => some v
      | none => some (Json.arr ((commaSplitTags s).map Json.str))

/-- The initial value of the `permissions` variable in the upload
handler. -/
def defaultPermissions : Json := Json.obj [("public", Json.bool false)]

/-- Permission parsing in the upload handler: default `\x7bpublic: false\x7d`;
when `req.body.permissions` is truthy, `JSON.parse` replaces the default
wholesale, and on a parse error the literal string `public` flips the
`public` flag to `true`. -/
def parsePermissions (permsField : Option String) : Json :=
  match permsField with
  | none => defaultPermissions
  | some s =>
    if s = "" then defaultPermissions
    else
      match Json.parse s with
      | some v => v
      | none =>
        if s = "public" then Json.obj [("public", Json.bool true)]
        else defaultPermissions

/-! ### Data model (SQL schema) -/

/-- A row of the `users` table: `id SERIAL PRIMARY KEY`, `name`,
`email UNIQUE NOT NULL`, `password NOT NULL`, `role DEFAULT user`,
`created_at DEFAULT CURRENT_TIMESTAMP`. -/
structure User where
  id : Nat
  name : String
  email : String
  password : String
  role : String
  createdAt : Nat

/-- The `users` table together with the `SERIAL` sequence backing `id`. -/
structure UsersState where
  rows : List User
  nextId : Nat

/-- A row of the `assets` table: `id UUID PRIMARY KEY` (note: the schema
declares no `DEFAULT` for `id`), `filename NOT NULL`,
`filepath NOT NULL`, `uploader_id`, `size`, `mimetype`, `tags TEXT`,
`permissions JSON`, `created_at`. -/
structure Asset where
  id : Option String
  filename : String
  filepath : String
  uploaderId : Nat
  size : Nat
  mimetype : String
  tags : Option String
  permissions : Json
  createdAt : Nat

/-- Ledger (database) failures surfaced by a query. -/
inductive DbError where
  | notNullViolation (column : String)
deriving DecidableEq

/-- The values supplied by the `INSERT INTO assets (filename, filepath,
mimetype, uploader_id, size, tags, permissions)` statement of the upload
handler — the `id` column is not in the list. -/
structure InsertAssetValues where
  filename : String
  filepath : String
  mimetype : String
  uploaderId : Nat
  size : Nat
  tags : Option String
  permissions : Json

/-- The `DEFAULT` of the `assets.id` column.  The schema declares
`id UUID PRIMARY KEY` with no `DEFAULT` clause, so a row inserted
without an explicit `id` gets SQL `NULL`. -/
def assetIdDefault : Option String := none

/-- PostgreSQL `PRIMARY KEY` implies `NOT NULL`: a row whose `id` is SQL
`NULL` is rejected. -/
def pkNotNullOk (row : Asset) : Bool := row.id.isSome

/-- The ledger insert: build the row from the supplied column values,
fill `id` from the column default, and enforce the primary-key
constraint. -/
def insertAsset (tbl : List Asset) (v : InsertAssetValues) (now : Nat) :
    Except DbError (Asset × List Asset) :=
  let row : Asset :=
    { id := assetIdDefault, filename := v.filename, filepath := v.filepath,
      uploaderId := v.uploaderId, size := v.size, mimetype := v.mimetype,
      tags := v.tags, permissions := v.permissions, createdAt := now }
  if pkNotNullOk row then .ok (row, tbl ++ [row])
  else .error (.notNullViolation "id")

/-! ### Multer staging (routes/assets.js) -/

/-- The upload allow-list of `fileFilter`. -/
def allowedMimetypes : List String := ["image/jpeg", "image/png", "application/pdf"]

/-- The multer size limit `fileSize: 5 * 1024 * 1024` — 5 MiB. -/
def maxFileSize : Nat := 5 * 1024 * 1024

/-- Multer staging failures. -/
inductive MulterError where
  | fileTypeNotAllowed
  | limitFileSize
deriving DecidableEq

/-- The incoming multipart file (declared mimetype, byte count, client
file name). -/
structure IncomingFile where
  originalname : String
  mimetype : String
  size : Nat

/-- Multer disk-storage filename: `Date.now() + "-" + file.originalname`. -/
def multerDiskName (now : Nat) (f : IncomingFile) : String :=
  toString now ++ "-" ++ f.originalname

/-- Multer staging: `fileFilter` checks the declared mimetype against the
allow-list before any byte is written; the `fileSize` limit aborts the
write (multer removes the partial file).  On success the file sits in the
upload directory under the timestamped name. -/
def multerStage (now : Nat) (f : IncomingFile) : Except MulterError String :=
  if !(allowedMimetypes.contains f.mimetype) then .error .fileTypeNotAllowed
  else if f.size > maxFileSize then .error .limitFileSize
  else .ok (multerDiskName now f)

/-! ### The upload orchestrator (routes/assets.js, POST /upload) -/

/-- Externally visible side effects of a request. -/
inductive Effect where
  | s3Put (key : String) (acl : String)
  | s3Delete (key : String)
  | unlink (path : String)
  | dbInsertAttempt
deriving DecidableEq

/-- Errors of the upload pipeline (the route reports them all as HTTP
500 except that multer rejections surface through the error
middleware). -/
inductive UploadError where
  | validation (e : MulterError)
  | permissionsTypeError
  | transferFailed
  | ledgerInsertFailed (e : DbError)
deriving DecidableEq

/-- Result of one upload request: the response, the `assets` table
afterwards, the effects issued, and the staging files left on local
disk. -/
structure UploadOutcome where
  result : Except UploadError Asset
  table : List Asset
  effects : List Effect
  tempFiles : List String

/-- The multer staging directory (`routes/../uploads`). -/
def uploadDir : String := "uploads"

/-- One upload request.  `nowStage` and `nowKey` are the two `Date.now()`
reads (multer filename, S3 key); `s3ok` is the outcome of the S3 transfer
(`await parallelUpload.done()`); `bucket` and `region` come from the
environment. -/
def uploadRoute (tbl : List Asset) (userId : Nat) (file : IncomingFile)
    (tagsField permsField : Option String) (nowStage nowKey : Nat)
    (s3ok : Bool) (bucket region : String) : UploadOutcome :=
  match multerStage nowStage file with
  | .error e => ⟨.error (.validation e), tbl, [], []⟩
  | .ok diskName =>
    let filepath := uploadDir ++ "/" ++ diskName
    let tags := parseTags tagsField
    let permissions := parsePermissions permsField
    match jsMemberTruthy permissions "public" with
    | .error _ => ⟨.error .permissionsTypeError, tbl, [], [filepath]⟩
    | .ok isPublic =>
      let acl := if isPublic then "public-read" else "private"
      let s3Key := "uploads/" ++ toString nowKey ++ "-" ++ diskName
      if s3ok then
        let fileUrl :=
          "https://" ++ bucket ++ ".s3." ++ region ++ ".amazonaws.com/" ++ s3Key
        let tagsText :=
          match tags with
          | some v => if v.truthy then some v.render else none
          | none => none
        match insertAsset tbl
            ⟨diskName, fileUrl, file.mimetype, userId, file.size, tagsText,
              permissions⟩ nowKey with
        | .ok (row, tbl2) =>
          ⟨.ok row, tbl2, [.s3Put s3Key acl, .unlink filepath, .dbInsertAttempt], []⟩
        | .error e =>
          ⟨.error (.ledgerInsertFailed e), tbl,
            [.s3Put s3Key acl, .unlink filepath, .dbInsertAttempt], []⟩
      else
        ⟨.error .transferFailed, tbl, [.s3Put s3Key acl], [filepath]⟩

end AssetManager

namespace AssetManager

/-! ### Delete routes -/

/-- The WHERE clause of the owner delete:
`filename = $1 AND uploader_id = $2`. -/
def assetMatchesOwner (f : String) (uid : Nat) (a : Asset) : Bool :=
  a.filename == f && a.uploaderId == uid

/-- Result of one delete request: HTTP status, response body fields, the
`assets` table afterwards, and the effects issued. -/
structure DeleteOutcome where
  status : Nat
  message : String
  asset : Option Asset
  table : List Asset
  effects : List Effect

/-- The separator used to extract the S3 key from the stored locator:
`fileUrl.split(".amazonaws.com/")[1]`. -/
def amazonHostSep : String := ".amazonaws.com/"

/-- DELETE /assets/:filename (routes/assets.js): one conditional
`DELETE ... WHERE filename = $1 AND uploader_id = $2 RETURNING *`;
no match yields 404; otherwise the S3 key is split out of the first
locator of the first returned row and a `DeleteObjectCommand` is sent (`s3ok` is
its outcome).  The response carries only a message, never the row. -/
def ownerDeleteRoute (tbl : List Asset) (f : String) (uid : Nat)
    (s3ok : Bool) : DeleteOutcome :=
  let remaining := tbl.filter (fun a => !(assetMatchesOwner f uid a))
  match tbl.filter (assetMatchesOwner f uid) with
  | [] => ⟨404, "File not found or not owned by user", none, tbl, []⟩
  | deletedFile :: _ =>
    match (jsSplit deletedFile.filepath amazonHostSep).get? 1 with
    | none => ⟨500, "Error deleting file", none, remaining, []⟩
    | some key =>
      if s3ok then
        ⟨200, "🗑️ File deleted successfully from S3", none, remaining,
          [.s3Delete key]⟩
      else ⟨500, "Error deleting file", none, remaining, [.s3Delete key]⟩

/-- Result of one admin delete request; `localFiles` is the local
filesystem of the server (the set of staging paths that exist). -/
structure AdminDeleteOutcome where
  status : Nat
  message : String
  asset : Option Asset
  table : List Asset
  effects : List Effect
  localFiles : List String

/-- DELETE /admin/assets/:filename (routes/admin.js): one conditional
`DELETE ... WHERE filename = $1 RETURNING *` with no ownership filter;
no match yields 404; otherwise, if the stored locator is a non-empty
path that exists on the **local filesystem**, it is unlinked there —
no request is ever sent to the object store — and the response echoes
the deleted row. -/
def adminDeleteRoute (tbl : List Asset) (f : String)
    (localFiles : List String) : AdminDeleteOutcome :=
  let remaining := tbl.filter (fun a => !(a.filename == f))
  match tbl.filter (fun a => a.filename == f) with
  | [] => ⟨404, "Asset not found", none, tbl, [], localFiles⟩
  | r :: _ =>
    if (r.filepath != "") && localFiles.contains r.filepath then
      ⟨200, "Asset deleted by admin", some r, remaining, [.unlink r.filepath],
        localFiles.filter (fun p => p ≠ r.filepath)⟩
    else ⟨200, "Asset deleted by admin", some r, remaining, [], localFiles⟩

/-! ### Registration (routes/auth.js, POST /register) -/

/-- The registration request body.  The route destructures only `name`,
`email` and `password`; a `role` member may be present but is never
read. -/
structure RegisterBody where
  name : String
  email : String
  password : String
  role : Option String

/-- Result of one registration request: HTTP status, response body
fields (`user` is the full `RETURNING *` row when present), and the
`users` table afterwards. -/
structure RegisterOutcome where
  status : Nat
  message : String
  user : Option User
  users : UsersState

/-- POST /auth/register: duplicate-email check
(`userExists.rows.length > 0` → 400), bcrypt hash (abstracted as
`hash`), then `INSERT INTO users (name, email, password, role) VALUES
($1, $2, $3, $4) RETURNING *` with the literal role `"user"`; the 201
response carries the whole returned row. -/
def registerRoute (st : UsersState) (body : RegisterBody)
    (hash : String → String) (now : Nat) : RegisterOutcome :=
  if (st.rows.filter (fun u => u.email == body.email)).length > 0 then
    ⟨400, "User already exists", none, st⟩
  else
    let hashedPassword := hash body.password
    let row : User :=
      ⟨st.nextId, body.name, body.email, hashedPassword, "user", now⟩
    ⟨201, "User registered successfully", some row,
      ⟨st.rows ++ [row], st.nextId + 1⟩⟩

/-! ### Visibility aggregate (routes/admin.js, GET /stats/visibility) -/

/-- PostgreSQL query failures relevant here. -/
inductive PgError where
  | invalidBoolCast
deriving DecidableEq

/-- Lower-case an ASCII letter. -/
def asciiLower (c : Char) : Char :=
  if 'A' ≤ c ∧ c ≤ 'Z' then Char.ofNat (c.toNat + 32) else c

/-- PostgreSQL text-to-boolean input (`parse_bool_with_len`): trimmed,
case-insensitive leading parts of `true`/`false`/`yes`, with `no`, `n`,
`on`, `off`, `of`, `1`, `0`; anything else raises an error (`none`). -/
def pgBoolOfText (s : String) : Option Bool :=
  let t := (trimChars s.toList).map asciiLower
  if t = [] then none
  else if listStartsWith "true".toList t then some true
  else if listStartsWith "false".toList t then some false
  else if listStartsWith "yes".toList t then some true
  else if t = "no".toList ∨ t = "n".toList then some false
  else if t = "on".toList then some true
  else if t = "off".toList ∨ t = "of".toList then some false
  else if t = "1".toList then some true
  else if t = "0".toList then some false
  else none

/-- Text form of a JSON value, as produced by the PostgreSQL `->>`
operator (`none` for JSON `null`, which becomes SQL `NULL`). -/
def Json.valueText : Json → Option String
  | .null => none
  | .bool true => some "true"
  | .bool false => some "false"
  | .num raw => some raw
  | .str s => some s
  | .arr es => some (Json.arr es).render
  | .obj fs => some (Json.obj fs).render

/-- The PostgreSQL expression `j ->> k`: member lookup on a JSON object
rendered as text; SQL `NULL` when `j` is not an object, the member is
missing, or the member is JSON `null`. -/
def jsonFieldText (j : Json) (k : String) : Option String :=
  match j with
  | .obj fields =>
    match lookupLast fields k with
    | some v => v.valueText
    | none => none
  | _ => none

/-- The per-row value of `(permissions ->> public)::boolean::int`:
SQL `NULL` propagates through the casts, a non-boolean text raises a
cast error. -/
def rowPublicInt (a : Asset) : Except PgError (Option Int) :=
  match jsonFieldText a.permissions "public" with
  | none => .ok none
  | some t =>
    match pgBoolOfText t with
    | none => .error .invalidBoolCast
    | some b => .ok (some (if b then 1 else 0))

/-- SQL `SUM`: `NULL` inputs are skipped; the result is `NULL` exactly
when no non-`NULL` input remains. -/
def sumAgg (vals : List (Option Int)) : Option Int :=
  match vals.filterMap id with
  | [] => none
  | x :: xs => some (x + xs.sum)

/-- Row-by-row evaluation of the `SUM` argument over the table; any
per-row cast error fails the whole query. -/
def mapRowPublicInts : List Asset → Except PgError (List (Option Int))
  | [] => .ok []
  | a :: as =>
    match rowPublicInt a, mapRowPublicInts as with
    | .ok v, .ok vs => .ok (v :: vs)
    | .error e, _ => .error e
    | .ok _, .error e => .error e

/-- The visibility statistics query:
`SUM((permissions ->> public)::boolean::int) AS public_files,
COUNT(*) - SUM(...) AS private_files FROM assets`. -/
def visibilityQuery (tbl : List Asset) : Except PgError (Option Int × Option Int) :=
  match mapRowPublicInts tbl with
  | .error e => .error e
  | .ok vals =>
    let publicFiles := sumAgg vals
    let totalCount : Int := tbl.length
    .ok (publicFiles, publicFiles.map (fun p => totalCount - p))

/-- GET /admin/stats/visibility: the query result with the
`result.rows[0].public_files || 0` defaulting of the handler applied to each field. -/
def visibilityResponse (tbl : List Asset) : Except PgError (Int × Int) :=
  match visibilityQuery tbl with
  | .error e => .error e
  | .ok (p, pr) => .ok (p.getD 0, pr.getD 0)

end AssetManager

namespace AssetManager

/-! ### Concrete inputs used by closed theorems and witnesses -/

/-- Stand-in for the bcrypt hash capability, used only to instantiate
closed statements; the route theorems abstract over the hash. -/
def demoHash (s : String) : String := "hashed-" ++ s

/-- A ledger row as produced by a (hypothetical) successful upload:
asset `a.jpg` of user 2, stored in S3. -/
def demoAsset : Asset :=
  { id := some "11111111-1111-1111-1111-111111111111", filename := "a.jpg",
    filepath := "https://b.s3.r.amazonaws.com/uploads/1-a.jpg", uploaderId := 2,
    size := 10, mimetype := "image/jpeg", tags := none,
    permissions := defaultPermissions, createdAt := 0 }

/-! ### Claim C1 -/

/-- Claim C1: the spec says the register response carries the created
User *without* the password credential.  The code answers 201 with the
whole `RETURNING *` row, so the bcrypt-hashed password IS in the
response: registering `alice@example.com` on an empty users table
returns the full row whose `password` field is the hash. -/
theorem c1_register_response_contains_password_hash :
    (registerRoute ⟨[], 1⟩ ⟨"alice", "alice@example.com", "pw123", none⟩
        demoHash 0).status = 201 ∧
    (registerRoute ⟨[], 1⟩ ⟨"alice", "alice@example.com", "pw123", none⟩
        demoHash 0).user =
      some ⟨1, "alice", "alice@example.com", demoHash "pw123", "user", 0⟩ :=
  ⟨rfl, rfl⟩

/-! ### Claim C10 -/

/-- Claim C10: every user created through POST /auth/register gets role
exactly `"user"`, whatever role value the request body carries; no
registration can create an admin. -/
theorem c10_register_role_always_user (st : UsersState) (body : RegisterBody)
    (hash : String → String) (now : Nat)
    (hfresh : ∀ u ∈ st.rows, u.email ≠ body.email) :
    ∃ u, (registerRoute st body hash now).user = some u ∧
      (registerRoute st body hash now).users.rows = st.rows ++ [u] ∧
      u.role = "user" ∧ u.role ≠ "admin" := by
  have hfilter : st.rows.filter (fun u => u.email == body.email) = [] := by
    rw [List.filter_eq_nil_iff]
    intro u hu
    simpa using hfresh u hu
  refine ⟨⟨st.nextId, body.name, body.email, hash body.password, "user", now⟩,
    ?_, ?_, rfl, by simp⟩
  · simp [registerRoute, hfilter]
  · simp [registerRoute, hfilter]

/-- Witness for C10: a registration body that explicitly asks for role
`"admin"` still yields a `"user"` row. -/
theorem c10_register_role_always_user_witness :
    ∃ u, (registerRoute ⟨[], 1⟩ ⟨"eve", "eve@example.com", "pw", some "admin"⟩
        demoHash 0).user = some u ∧
      (registerRoute ⟨[], 1⟩ ⟨"eve", "eve@example.com", "pw", some "admin"⟩
        demoHash 0).users.rows = [] ++ [u] ∧
      u.role = "user" ∧ u.role ≠ "admin" :=
  c10_register_role_always_user ⟨[], 1⟩ ⟨"eve", "eve@example.com", "pw", some "admin"⟩
    demoHash 0 (by intro u hu; cases hu)

/-! ### Claim C5 -/

/-- Claim C5: the spec says the ledger insert assigns a globally unique,
non-sequential identifier.  The schema declares `assets.id UUID PRIMARY
KEY` with no `DEFAULT`, and the `INSERT` of the upload handler omits the `id`
column, so the `id` of the row is SQL `NULL` and every insert fails with a
not-null violation on the primary key — no identifier is ever assigned,
and no upload can produce a ledger row. -/
theorem c5_ledger_insert_never_assigns_identifier (tbl : List Asset)
    (v : InsertAssetValues) (now : Nat) :
    insertAsset tbl v now = .error (.notNullViolation "id") ∧
    ∀ (userId : Nat) (file : IncomingFile) (tagsF permsF : Option String)
      (ns nk : Nat) (s3ok : Bool) (b r : String) (a : Asset),
      (uploadRoute tbl userId file tagsF permsF ns nk s3ok b r).result ≠
        Except.ok a := by
  have hins : ∀ (w : InsertAssetValues) (n : Nat),
      insertAsset tbl w n = .error (.notNullViolation "id") := fun _ _ => rfl
  refine ⟨hins v now, ?_⟩
  intro userId file tagsF permsF ns nk s3ok b r a
  unfold uploadRoute
  cases multerStage ns file with
  | error e => simp
  | ok diskName =>
    simp only
    cases jsMemberTruthy (parsePermissions permsF) "public" with
    | error e => simp
    | ok isPublic =>
      simp only
      cases s3ok with
      | false => simp
      | true =>
        simp only [if_true]
        rw [hins]
        simp

end AssetManager

namespace AssetManager

/-! ### Claim C7 -/

/-- Claim C7: when no ledger row matches both the filename and the
user id of the requester — the asset belongs to someone else, or was already
deleted — the non-admin delete answers 404 NotFound (never 403
Forbidden), leaves the table untouched and issues no effect; ownership
is enforced only by the scope of the one conditional `DELETE`. -/
theorem c7_owner_delete_unmatched_is_not_found (tbl : List Asset) (f : String)
    (uid : Nat) (s3ok : Bool)
    (hnone : ∀ a ∈ tbl, ¬(a.filename = f ∧ a.uploaderId = uid)) :
    (ownerDeleteRoute tbl f uid s3ok).status = 404 ∧
    (ownerDeleteRoute tbl f uid s3ok).message = "File not found or not owned by user" ∧
    (ownerDeleteRoute tbl f uid s3ok).asset = none ∧
    (ownerDeleteRoute tbl f uid s3ok).table = tbl ∧
    (ownerDeleteRoute tbl f uid s3ok).effects = [] ∧
    (ownerDeleteRoute tbl f uid s3ok).status ≠ 403 := by
  have hfilter : tbl.filter (assetMatchesOwner f uid) = [] := by
    rw [List.filter_eq_nil_iff]
    intro a ha
    simpa [assetMatchesOwner] using hnone a ha
  have hroute : ownerDeleteRoute tbl f uid s3ok =
      ⟨404, "File not found or not owned by user", none, tbl, []⟩ := by
    unfold ownerDeleteRoute
    rw [hfilter]
  rw [hroute]
  exact ⟨rfl, rfl, rfl, rfl, rfl, by simp⟩

/-- Witness for C7: `demoAsset` is owned by user 2; a delete by user 1 of
the same filename gets 404, an unchanged table and no store call. -/
theorem c7_owner_delete_unmatched_is_not_found_witness :
    (ownerDeleteRoute [demoAsset] "a.jpg" 1 true).status = 404 ∧
    (ownerDeleteRoute [demoAsset] "a.jpg" 1 true).message = "File not found or not owned by user" ∧
    (ownerDeleteRoute [demoAsset] "a.jpg" 1 true).asset = none ∧
    (ownerDeleteRoute [demoAsset] "a.jpg" 1 true).table = [demoAsset] ∧
    (ownerDeleteRoute [demoAsset] "a.jpg" 1 true).effects = [] ∧
    (ownerDeleteRoute [demoAsset] "a.jpg" 1 true).status ≠ 403 :=
  c7_owner_delete_unmatched_is_not_found [demoAsset] "a.jpg" 1 true
    (by intro a ha; simp at ha; subst ha; simp [demoAsset])

/-! ### Claim C2 -/

/-- Claim C2 counterexample: an admin delete of `a.jpg` succeeds (200,
row removed) yet issues NO effect at all — in particular no delete
against the object store — because the admin route only probes the
local filesystem for the stored S3 URL. -/
theorem c2_counterexample_admin_delete_skips_store :
    (adminDeleteRoute [demoAsset] "a.jpg" []).status = 200 ∧
    (adminDeleteRoute [demoAsset] "a.jpg" []).table = [] ∧
    (adminDeleteRoute [demoAsset] "a.jpg" []).effects = [] :=
  ⟨rfl, rfl, rfl⟩

/-- Claim C2 amended: only the owner-initiated delete removes the
backing object — a successful DELETE /assets/:filename issues a store
delete for the key split out of the persisted locator, while
DELETE /admin/assets/:filename never issues any store delete. -/
theorem c2_amended_only_owner_delete_reaches_store (tbl : List Asset)
    (f : String) (uid : Nat) (a : Asset) (key : String)
    (hhead : (tbl.filter (assetMatchesOwner f uid)).head? = some a)
    (hkey : (jsSplit a.filepath amazonHostSep).get? 1 = some key) :
    ((ownerDeleteRoute tbl f uid true).status = 200 ∧
      Effect.s3Delete key ∈ (ownerDeleteRoute tbl f uid true).effects) ∧
    ∀ (tbl2 : List Asset) (f2 : String) (lf2 : List String) (k2 : String),
      Effect.s3Delete k2 ∉ (adminDeleteRoute tbl2 f2 lf2).effects := by
  constructor
  · obtain ⟨rest, hrest⟩ : ∃ rest, tbl.filter (assetMatchesOwner f uid) = a :: rest := by
      cases hfil : tbl.filter (assetMatchesOwner f uid) with
      | nil => rw [hfil] at hhead; cases hhead
      | cons x xs =>
        rw [hfil] at hhead
        simp only [List.head?_cons, Option.some.injEq] at hhead
        exact ⟨xs, by rw [hhead]⟩
    have hroute : ownerDeleteRoute tbl f uid true =
        ⟨200, "🗑️ File deleted successfully from S3", none,
          tbl.filter (fun x => !(assetMatchesOwner f uid x)), [.s3Delete key]⟩ := by
      unfold ownerDeleteRoute
      simp only [hrest, hkey, if_pos]
    rw [hroute]
    exact ⟨rfl, by simp⟩
  · intro tbl2 f2 lf2 k2
    unfold adminDeleteRoute
    cases tbl2.filter (fun x => x.filename == f2) with
    | nil => simp
    | cons r rs =>
      simp only
      by_cases hc : (r.filepath != "") && lf2.contains r.filepath
      · rw [if_pos hc]; simp
      · rw [if_neg hc]; simp

/-- Witness for C2 amended: user 2 deletes their own `a.jpg`; the store
delete for key `uploads/1-a.jpg` is issued; and the admin route (over
any table) never issues one. -/
theorem c2_amended_only_owner_delete_reaches_store_witness :
    ((ownerDeleteRoute [demoAsset] "a.jpg" 2 true).status = 200 ∧
      Effect.s3Delete "uploads/1-a.jpg" ∈ (ownerDeleteRoute [demoAsset] "a.jpg" 2 true).effects) ∧
    ∀ (tbl2 : List Asset) (f2 : String) (lf2 : List String) (k2 : String),
      Effect.s3Delete k2 ∉ (adminDeleteRoute tbl2 f2 lf2).effects :=
  c2_amended_only_owner_delete_reaches_store [demoAsset] "a.jpg" 2 demoAsset
    "uploads/1-a.jpg" rfl rfl

/-! ### Claim C3 -/

/-- Claim C3 counterexample: a successful owner delete (ledger row
matched and removed, store delete succeeded, 200) does NOT echo the
deleted Asset — the response body of DELETE /assets/:filename carries
only a message. -/
theorem c3_counterexample_owner_delete_does_not_echo :
    (ownerDeleteRoute [demoAsset] "a.jpg" 2 true).status = 200 ∧
    (ownerDeleteRoute [demoAsset] "a.jpg" 2 true).table = [] ∧
    (ownerDeleteRoute [demoAsset] "a.jpg" 2 true).asset = none :=
  ⟨rfl, rfl, rfl⟩

/-- Claim C3 amended: only the admin delete echoes the deleted Asset
back in its success response; the owner delete answers success with a
bare message and no asset. -/
theorem c3_amended_only_admin_delete_echoes_asset (tbl : List Asset)
    (f : String) (uid : Nat) (lf : List String) (a b : Asset) (key : String)
    (hhead : (tbl.filter (assetMatchesOwner f uid)).head? = some a)
    (hkey : (jsSplit a.filepath amazonHostSep).get? 1 = some key)
    (hadm : (tbl.filter (fun x => x.filename == f)).head? = some b) :
    ((ownerDeleteRoute tbl f uid true).status = 200 ∧
      (ownerDeleteRoute tbl f uid true).asset = none) ∧
    ((adminDeleteRoute tbl f lf).status = 200 ∧
      (adminDeleteRoute tbl f lf).asset = some b) := by
  constructor
  · obtain ⟨rest, hrest⟩ : ∃ rest, tbl.filter (assetMatchesOwner f uid) = a :: rest := by
      cases hfil : tbl.filter (assetMatchesOwner f uid) with
      | nil => rw [hfil] at hhead; cases hhead
      | cons x xs =>
        rw [hfil] at hhead
        simp only [List.head?_cons, Option.some.injEq] at hhead
        exact ⟨xs, by rw [hhead]⟩
    have hroute : ownerDeleteRoute tbl f uid true =
        ⟨200, "🗑️ File deleted successfully from S3", none,
          tbl.filter (fun x => !(assetMatchesOwner f uid x)), [.s3Delete key]⟩ := by
      unfold ownerDeleteRoute
      simp only [hrest, hkey, if_pos]
    rw [hroute]
    exact ⟨rfl, rfl⟩
  · obtain ⟨rest, hrest⟩ : ∃ rest, tbl.filter (fun x => x.filename == f) = b :: rest := by
      cases hfil : tbl.filter (fun x => x.filename == f) with
      | nil => rw [hfil] at hadm; cases hadm
      | cons x xs =>
        rw [hfil] at hadm
        simp only [List.head?_cons, Option.some.injEq] at hadm
        exact ⟨xs, by rw [hadm]⟩
    unfold adminDeleteRoute
    rw [hrest]
    simp only
    by_cases hc : (b.filepath != "") && lf.contains b.filepath
    · rw [if_pos hc]; exact ⟨rfl, rfl⟩
    · rw [if_neg hc]; exact ⟨rfl, rfl⟩

/-- Witness for C3 amended: on a one-row table owned by user 2, the
owner delete returns no asset while the admin delete echoes the row. -/
theorem c3_amended_only_admin_delete_echoes_asset_witness :
    ((ownerDeleteRoute [demoAsset] "a.jpg" 2 true).status = 200 ∧
      (ownerDeleteRoute [demoAsset] "a.jpg" 2 true).asset = none) ∧
    ((adminDeleteRoute [demoAsset] "a.jpg" []).status = 200 ∧
      (adminDeleteRoute [demoAsset] "a.jpg" []).asset = some demoAsset) :=
  c3_amended_only_admin_delete_echoes_asset [demoAsset] "a.jpg" 2 [] demoAsset
    demoAsset "uploads/1-a.jpg" rfl rfl rfl

end AssetManager

namespace AssetManager

/-! ### Claim C4 -/

/-- The incoming file used by closed upload statements: a valid 10-byte
JPEG. -/
def demoFile : IncomingFile := ⟨"a.jpg", "image/jpeg", 10⟩

/-- Claim C4 counterexample: when the S3 transfer fails, no ledger row
is created — but the staged local copy is NOT discarded: the catch
block of the upload handler never unlinks the temporary file, so
`uploads/5-a.jpg` is left behind. -/
theorem c4_counterexample_staged_copy_left_behind :
    (uploadRoute [] 1 demoFile none none 5 6 false "b" "r").result =
      .error .transferFailed ∧
    (uploadRoute [] 1 demoFile none none 5 6 false "b" "r").table = [] ∧
    Effect.dbInsertAttempt ∉ (uploadRoute [] 1 demoFile none none 5 6 false "b" "r").effects ∧
    (uploadRoute [] 1 demoFile none none 5 6 false "b" "r").tempFiles =
      ["uploads/5-a.jpg"] ∧
    ("uploads/5-a.jpg" : String) ≠ "" := by
  refine ⟨rfl, rfl, ?_, rfl, by simp⟩
  intro h
  simp [uploadRoute, multerStage, demoFile, allowedMimetypes, maxFileSize,
    multerDiskName, uploadDir, parsePermissions, defaultPermissions,
    jsMemberTruthy, lookupLast] at h

/-- Claim C4 amended: on a transfer failure the upload creates no ledger
row and attempts no insert, but the staged local copy is not discarded —
the temporary file remains in the staging directory. -/
theorem c4_amended_transfer_failure_keeps_staged_copy (tbl : List Asset)
    (userId : Nat) (file : IncomingFile) (tagsF permsF : Option String)
    (ns nk : Nat) (b r : String)
    (hmt : allowedMimetypes.contains file.mimetype = true)
    (hsz : file.size ≤ maxFileSize)
    (hperm : parsePermissions permsF ≠ Json.null) :
    (uploadRoute tbl userId file tagsF permsF ns nk false b r).result =
      .error .transferFailed ∧
    (uploadRoute tbl userId file tagsF permsF ns nk false b r).table = tbl ∧
    Effect.dbInsertAttempt ∉ (uploadRoute tbl userId file tagsF permsF ns nk false b r).effects ∧
    (uploadRoute tbl userId file tagsF permsF ns nk false b r).tempFiles =
      [uploadDir ++ "/" ++ multerDiskName ns file] := by
  have hstage : multerStage ns file = .ok (multerDiskName ns file) := by
    unfold multerStage
    rw [hmt]
    simp [Nat.not_lt.mpr hsz]
  obtain ⟨pub, hpub⟩ :
      ∃ pub, jsMemberTruthy (parsePermissions permsF) "public" = .ok pub := by
    cases hp : parsePermissions permsF with
    | null => exact absurd hp hperm
    | bool b2 => exact ⟨false, rfl⟩
    | num raw => exact ⟨false, rfl⟩
    | str s => exact ⟨false, rfl⟩
    | arr es => exact ⟨false, rfl⟩
    | obj fs =>
      cases hl : lookupLast fs "public" with
      | some v => exact ⟨v.truthy, by simp [jsMemberTruthy, hl]⟩
      | none => exact ⟨false, by simp [jsMemberTruthy, hl]⟩
  unfold uploadRoute
  simp [hstage, hpub]

/-- Witness for C4 amended: the concrete failing transfer of
`demoFile`. -/
theorem c4_amended_transfer_failure_keeps_staged_copy_witness :
    (uploadRoute [] 1 demoFile none none 5 6 false "b" "r").result =
      .error .transferFailed ∧
    (uploadRoute [] 1 demoFile none none 5 6 false "b" "r").table = [] ∧
    Effect.dbInsertAttempt ∉ (uploadRoute [] 1 demoFile none none 5 6 false "b" "r").effects ∧
    (uploadRoute [] 1 demoFile none none 5 6 false "b" "r").tempFiles =
      [uploadDir ++ "/" ++ multerDiskName 5 demoFile] :=
  c4_amended_transfer_failure_keeps_staged_copy [] 1 demoFile none none 5 6
    "b" "r" rfl (by simp [demoFile, maxFileSize]) (by intro h; cases h)

/-! ### Claim C6 -/

/-- Claim C6: an upload whose declared content type is outside the
allow-list, or whose size exceeds 5 MiB, is rejected by multer with a
validation error before anything happens: no object-store transfer, no
ledger row, no staged file left. -/
theorem c6_invalid_upload_rejected_before_any_io (tbl : List Asset)
    (userId : Nat) (file : IncomingFile) (tagsF permsF : Option String)
    (ns nk : Nat) (s3ok : Bool) (b r : String)
    (hbad : allowedMimetypes.contains file.mimetype = false ∨
      file.size > maxFileSize) :
    (∃ e, (uploadRoute tbl userId file tagsF permsF ns nk s3ok b r).result =
      .error (.validation e)) ∧
    (uploadRoute tbl userId file tagsF permsF ns nk s3ok b r).effects = [] ∧
    (uploadRoute tbl userId file tagsF permsF ns nk s3ok b r).table = tbl ∧
    (uploadRoute tbl userId file tagsF permsF ns nk s3ok b r).tempFiles = [] := by
  obtain ⟨e, he⟩ : ∃ e, multerStage ns file = .error e := by
    rcases hbad with h | h
    · refine ⟨.fileTypeNotAllowed, ?_⟩
      unfold multerStage
      rw [h]
      rfl
    · by_cases hm : allowedMimetypes.contains file.mimetype
      · refine ⟨.limitFileSize, ?_⟩
        unfold multerStage
        rw [hm]
        simp [h]
      · have hf : allowedMimetypes.contains file.mimetype = false := by
          cases hcontains : allowedMimetypes.contains file.mimetype
          · rfl
          · exact absurd hcontains hm
        refine ⟨.fileTypeNotAllowed, ?_⟩
        unfold multerStage
        rw [hf]
        rfl
  have hroute : uploadRoute tbl userId file tagsF permsF ns nk s3ok b r =
      ⟨.error (.validation e), tbl, [], []⟩ := by
    unfold uploadRoute
    rw [he]
  rw [hroute]
  exact ⟨⟨e, rfl⟩, rfl, rfl, rfl⟩

/-- Witness for C6: both rejection branches at concrete inputs — a
10-byte `text/plain` file, and a 6 MiB JPEG. -/
theorem c6_invalid_upload_rejected_before_any_io_witness :
    ((∃ e, (uploadRoute [] 1 ⟨"a.txt", "text/plain", 10⟩ none none 5 6 true "b" "r").result =
      .error (.validation e)) ∧
    (uploadRoute [] 1 ⟨"a.txt", "text/plain", 10⟩ none none 5 6 true "b" "r").effects = [] ∧
    (uploadRoute [] 1 ⟨"a.txt", "text/plain", 10⟩ none none 5 6 true "b" "r").table = [] ∧
    (uploadRoute [] 1 ⟨"a.txt", "text/plain", 10⟩ none none 5 6 true "b" "r").tempFiles = []) ∧
    ((∃ e, (uploadRoute [] 1 ⟨"big.jpg", "image/jpeg", 6291456⟩ none none 5 6 true "b" "r").result =
      .error (.validation e)) ∧
    (uploadRoute [] 1 ⟨"big.jpg", "image/jpeg", 6291456⟩ none none 5 6 true "b" "r").effects = [] ∧
    (uploadRoute [] 1 ⟨"big.jpg", "image/jpeg", 6291456⟩ none none 5 6 true "b" "r").table = [] ∧
    (uploadRoute [] 1 ⟨"big.jpg", "image/jpeg", 6291456⟩ none none 5 6 true "b" "r").tempFiles = []) :=
  ⟨c6_invalid_upload_rejected_before_any_io [] 1 ⟨"a.txt", "text/plain", 10⟩
      none none 5 6 true "b" "r" (Or.inl rfl),
    c6_invalid_upload_rejected_before_any_io [] 1 ⟨"big.jpg", "image/jpeg", 6291456⟩
      none none 5 6 true "b" "r" (Or.inr (by simp [maxFileSize]))⟩

end AssetManager

namespace AssetManager

/-! ### Trim lemmas for Claim C8 -/

/-- Dropping from a list whose head (if any) fails the predicate is the
identity. -/
theorem dropWhile_of_head_neg (p : Char → Bool) (l : List Char)
    (h : ∀ c, l.head? = some c → p c = false) : l.dropWhile p = l := by
  cases l with
  | nil => rfl
  | cons c cs =>
    have hc := h c rfl
    simp [List.dropWhile_cons, hc]

/-- The head of `l.dropWhile p` fails `p`. -/
theorem head_dropWhile_false (p : Char → Bool) (l : List Char) (c : Char)
    (hc : (l.dropWhile p).head? = some c) : p c = false := by
  have h := List.head?_dropWhile_not p l
  rw [hc] at h
  exact h

/-- Dropping a satisfying run twice is the same as dropping it once. -/
theorem dropWhile_idem (p : Char → Bool) (l : List Char) :
    (l.dropWhile p).dropWhile p = l.dropWhile p :=
  dropWhile_of_head_neg p _ (fun c hc => head_dropWhile_false p l c hc)

/-- Trimming the tail of `L` keeps its head (or empties it). -/
theorem head?_reverse_dropWhile_reverse (p : Char → Bool) (L : List Char) :
    ((L.reverse.dropWhile p).reverse).head? = none ∨
    ((L.reverse.dropWhile p).reverse).head? = L.head? := by
  cases L with
  | nil => left; rfl
  | cons a t =>
    rw [List.reverse_cons, List.dropWhile_append]
    by_cases he : (t.reverse.dropWhile p).isEmpty
    · rw [if_pos he]
      by_cases hpa : p a
      · left; simp [List.dropWhile_cons, hpa]
      · right; simp [List.dropWhile_cons, hpa]
    · rw [if_neg he]
      right
      simp

/-- The character-list trim is idempotent. -/
theorem trimChars_idem (l : List Char) : trimChars (trimChars l) = trimChars l := by
  unfold trimChars
  have hMdrop : (((l.dropWhile jsTrimWs).reverse.dropWhile jsTrimWs).reverse).dropWhile jsTrimWs =
      ((l.dropWhile jsTrimWs).reverse.dropWhile jsTrimWs).reverse := by
    apply dropWhile_of_head_neg
    intro c hc
    rcases head?_reverse_dropWhile_reverse jsTrimWs (l.dropWhile jsTrimWs) with h | h
    · rw [h] at hc; cases hc
    · rw [h] at hc
      exact head_dropWhile_false jsTrimWs l c hc
  rw [hMdrop, List.reverse_reverse, dropWhile_idem]

/-- The JavaScript `trim` is idempotent. -/
theorem jsTrim_idem (s : String) : jsTrim (jsTrim s) = jsTrim s := by
  unfold jsTrim
  rw [show (String.mk (trimChars s.toList)).toList = trimChars s.toList from rfl,
    trimChars_idem]

/-! ### Claim C8 -/

/-- Whether a JSON value is an array. -/
def Json.isArray : Json → Bool
  | .arr _ => true
  | _ => false

/-- Claim C8 counterexample: the claim says only a JSON array or the
comma-split fallback can come out of tags parsing.  But `JSON.parse`
succeeds on the input `42`, so the tags value becomes the JSON number
42 — not an array, and not the comma-split token list either. -/
theorem c8_counterexample_tags_accept_json_number :
    parseTags (some "42") = some (Json.num "42") ∧
    (Json.num "42").isArray = false ∧
    Json.num "42" ≠ Json.arr ((commaSplitTags "42").map Json.str) := by
  refine ⟨rfl, rfl, ?_⟩
  intro h
  cases h

/-- Claim C8 amended: for a non-empty tags field, tags parsing accepts
ANY value `JSON.parse` yields (array or not); only when `JSON.parse`
fails does it fall back to splitting on commas, and that fallback is an
array of trimmed, non-empty string tokens. -/
theorem c8_amended_tags_parse_any_json_or_comma_split (s : String)
    (hne : s ≠ "") :
    (∀ v, Json.parse s = some v → parseTags (some s) = some v) ∧
    (Json.parse s = none →
      parseTags (some s) = some (Json.arr ((commaSplitTags s).map Json.str)) ∧
      ∀ t ∈ commaSplitTags s, t ≠ "" ∧ jsTrim t = t) := by
  constructor
  · intro v hv
    simp [parseTags, hne, hv]
  · intro hv
    refine ⟨by simp [parseTags, hne, hv], ?_⟩
    intro t ht
    have h1 : t ≠ "" := by
      have := List.of_mem_filter ht
      simpa using this
    refine ⟨h1, ?_⟩
    have h2 : t ∈ (jsSplit s ",").map jsTrim := List.mem_of_mem_filter ht
    obtain ⟨u, _, hu⟩ := List.mem_map.mp h2
    rw [← hu, jsTrim_idem]

/-- Witness for C8 amended: `x, y,` is not JSON, so the fallback yields
the trimmed non-empty tokens `x` and `y`. -/
theorem c8_amended_tags_parse_any_json_or_comma_split_witness :
    ("x, y," : String) ≠ "" ∧
    parseTags (some "x, y,") = some (Json.arr [Json.str "x", Json.str "y"]) :=
  ⟨by simp,
    ((c8_amended_tags_parse_any_json_or_comma_split "x, y," (by simp)).2 rfl).1⟩

end AssetManager

namespace AssetManager

/-! ### Claim C9 -/

/-- A row whose permissions carry a boolean `public` member casts to the
expected 0/1 summand. -/
theorem rowPublicInt_of_bool (a : Asset) (fs : List (String × Json)) (b : Bool)
    (hperm : a.permissions = Json.obj fs)
    (hlook : lookupLast fs "public" = some (Json.bool b)) :
    rowPublicInt a = .ok (some (if b then 1 else 0)) := by
  unfold rowPublicInt jsonFieldText
  simp only [hperm, hlook]
  cases b <;> rfl

/-- If every row casts cleanly, the row evaluation succeeds with one
non-`NULL` summand per row. -/
theorem mapRowPublicInts_all_ok (tbl : List Asset)
    (h : ∀ a ∈ tbl, ∃ i : Int, rowPublicInt a = .ok (some i)) :
    ∃ xs : List Int, mapRowPublicInts tbl = .ok (xs.map some) ∧
      xs.length = tbl.length := by
  induction tbl with
  | nil => exact ⟨[], rfl, rfl⟩
  | cons a as ih =>
    obtain ⟨i, hi⟩ := h a (List.mem_cons_self a as)
    obtain ⟨xs, hxs, hlen⟩ := ih (fun x hx => h x (List.mem_cons_of_mem a hx))
    refine ⟨i :: xs, ?_, by simp [hlen]⟩
    unfold mapRowPublicInts
    rw [hi, hxs]
    rfl

/-- Applying `filterMap id` undoes `map some`. -/
theorem filterMap_id_map_some (xs : List Int) : (xs.map some).filterMap id = xs := by
  induction xs with
  | nil => rfl
  | cons x t ih => simp [ih]

/-- Claim C9 amended: whenever the permissions JSON of every asset is an
object with a boolean `public` member — covering all-public,
all-private, mixed, and the empty ledger — the visibility aggregate
satisfies `public_files + private_files = total asset count`. -/
theorem c9_amended_visibility_conserves_total (tbl : List Asset)
    (hb : ∀ a ∈ tbl, ∃ fs b, a.permissions = Json.obj fs ∧
      lookupLast fs "public" = some (Json.bool b)) :
    ∃ p pr : Int, visibilityResponse tbl = .ok (p, pr) ∧
      p + pr = (tbl.length : Int) := by
  have hrows : ∀ a ∈ tbl, ∃ i : Int, rowPublicInt a = .ok (some i) := by
    intro a ha
    obtain ⟨fs, b, hperm, hlook⟩ := hb a ha
    exact ⟨if b then 1 else 0, rowPublicInt_of_bool a fs b hperm hlook⟩
  obtain ⟨xs, hxs, hlen⟩ := mapRowPublicInts_all_ok tbl hrows
  cases xs with
  | nil =>
    have htbl : tbl = [] := by
      have h0 : (0 : Nat) = tbl.length := hlen
      exact List.length_eq_zero.mp h0.symm
    subst htbl
    exact ⟨0, 0, rfl, by simp⟩
  | cons x t =>
    have hsum : sumAgg ((x :: t).map some) = some (x + t.sum) := by
      unfold sumAgg
      rw [filterMap_id_map_some (x :: t)]
    refine ⟨x + t.sum, (tbl.length : Int) - (x + t.sum), ?_, by ring⟩
    unfold visibilityResponse visibilityQuery
    rw [hxs]
    simp only [hsum]
    simp

/-- Two demo rows: one public, one private. -/
def publicDemoAsset : Asset :=
  { id := some "33333333-3333-3333-3333-333333333333", filename := "c.png",
    filepath := "https://b.s3.r.amazonaws.com/uploads/3-c.png", uploaderId := 1,
    size := 7, mimetype := "image/png", tags := none,
    permissions := Json.obj [("public", Json.bool true)], createdAt := 0 }

/-- Companion private row for the C9 witness. -/
def privateDemoAsset : Asset :=
  { id := some "44444444-4444-4444-4444-444444444444", filename := "d.pdf",
    filepath := "https://b.s3.r.amazonaws.com/uploads/4-d.pdf", uploaderId := 1,
    size := 9, mimetype := "application/pdf", tags := none,
    permissions := defaultPermissions, createdAt := 0 }

/-- Witness for C9 amended: one public and one private asset give
1 + 1 = 2. -/
theorem c9_amended_visibility_conserves_total_witness :
    ∃ p pr : Int,
      visibilityResponse [publicDemoAsset, privateDemoAsset] = .ok (p, pr) ∧
      p + pr = (([publicDemoAsset, privateDemoAsset] : List Asset).length : Int) :=
  c9_amended_visibility_conserves_total [publicDemoAsset, privateDemoAsset] (by
    intro a ha
    simp only [List.mem_cons, List.not_mem_nil, or_false] at ha
    rcases ha with rfl | rfl
    · exact ⟨[("public", Json.bool true)], true, rfl, rfl⟩
    · exact ⟨[("public", Json.bool false)], false, rfl, rfl⟩)

/-- An asset whose permissions object has no `public` member, as stored
by an upload whose permissions field was the JSON text `\x7b\x7d`. -/
def noPublicKeyAsset : Asset :=
  { id := some "22222222-2222-2222-2222-222222222222", filename := "b.jpg",
    filepath := "https://b.s3.r.amazonaws.com/uploads/2-b.jpg", uploaderId := 1,
    size := 5, mimetype := "image/jpeg", tags := none,
    permissions := Json.obj [], createdAt := 0 }

/-- Claim C9 counterexample: with a single asset whose permissions lack
the `public` key, the `->>` extraction is SQL `NULL` for every row, so
`SUM` is `NULL`, both response fields default to 0 via the
`|| 0` of the handler, and 0 + 0 is not the total asset count 1. -/
theorem c9_counterexample_missing_public_key_breaks_total :
    visibilityResponse [noPublicKeyAsset] = .ok (0, 0) ∧
    (0 : Int) + 0 ≠ (([noPublicKeyAsset] : List Asset).length : Int) :=
  ⟨rfl, by simp⟩

end AssetManager
